import Mathlib

/-!
Verification of the event-log decoding engine of `eth_event` (file
`src/eth_event/main.py`) against its natural-language specification.

The Python module is shallowly embedded below.  Python dictionaries with a
fixed set of relevant keys become structures; a possibly-missing key becomes
an `Option` field, and reading an absent key produces the `keyError`
variant of the error type, mirroring a raised `KeyError`.  Fallible Python
code is embedded as `Except Err`; each Python exception class used by the
module is one constructor of `Err`.  Byte strings are `List Nat` (one entry
per byte), hex strings are `String`.

The external ABI word codec (`eth_abi.decode`), the hash (`keccak`) and the
address checksummer (`eth_utils.to_checksum_address`) are external
libraries declared as black-box boundaries by the specification (spec
sections 1, 4.3, 6, 9); the embedded functions take them as explicit
function arguments, and a small executable model of the codec is provided
for concrete evaluation.
-/

namespace EthEvent

/-- Failures of the external `eth_abi` codec that the module catches
(`InsufficientDataBytes`, `NonEmptyPaddingBytes`, `NoEntriesFound`,
`InvalidPointer`, `OverflowError`). -/
inductive CodecErr where
  | insufficientDataBytes
  | nonEmptyPaddingBytes
  | noEntriesFound
  | invalidPointer (msg : String)
  | overflowError
deriving DecidableEq, Repr

/-- Errors of the embedded code.  The first four mirror the module's own
exception classes; the remaining constructors mirror raw Python exceptions
(`KeyError`, `TypeError`, `IndexError`, `ValueError`, `StopIteration`) and
uncaught exceptions escaping from the `eth_abi` codec. -/
inductive Err where
  | abiError (msg : String)
  | eventError (msg : String)
  | structLogError (msg : String)
  | unknownEvent (msg : String)
  | keyError (key : String)
  | pyTypeError
  | pyIndexError
  | pyValueError
  | pyStopIteration
  | codecRaw (e : CodecErr)
deriving DecidableEq, Repr

/-- A decoded Python value as returned by the codec. -/
inductive Value where
  | int (n : Int)
  | bytes (bs : List Nat)
  | str (s : String)
  | bool (b : Bool)
deriving DecidableEq, Repr

/-- Signature of `eth_abi.decode`: canonical type names plus a byte buffer
to a list of decoded values, or a codec failure.  Kept abstract because the
codec is an external library (spec sections 4.3 and 6). -/
def Dec : Type := List String → List Nat → Except CodecErr (List Value)

/-! ### Hex utilities (the `HexBytes` / `_0xstring` boundary) -/

/-- Value of one hexadecimal digit character, upper or lower case. -/
def hexVal? (c : Char) : Option Nat :=
  if '0' ≤ c ∧ c ≤ '9' then some (c.toNat - '0'.toNat)
  else if 'a' ≤ c ∧ c ≤ 'f' then some (c.toNat - 'a'.toNat + 10)
  else if 'A' ≤ c ∧ c ≤ 'F' then some (c.toNat - 'A'.toNat + 10)
  else none

/-- Parse an even-length run of hex digit characters into bytes. -/
def hexPairs? : List Char → Option (List Nat)
  | [] => some []
  | [_] => none
  | c1 :: c2 :: rest => do
    let h ← hexVal? c1
    let l ← hexVal? c2
    let bs ← hexPairs? rest
    some ((h * 16 + l) :: bs)

/-- Model of `HexBytes(s)` for a string `s`: strip an optional `0x`/`0X`, left-pad an
odd-length digit run with `0`, parse byte pairs; `none` models the raised
`ValueError` on a non-hex character. -/
def hexToBytes? (s : String) : Option (List Nat) :=
  let cs := s.toList
  let cs := if cs.take 2 = ['0', 'x'] ∨ cs.take 2 = ['0', 'X'] then cs.drop 2 else cs
  hexPairs? (if cs.length % 2 = 1 then '0' :: cs else cs)

/-- Lower-case hex digit character of `n % 16` (`Nat.digitChar` is exactly
the `0`-`9`, `a`-`f` table for arguments below 16). -/
def hexChar (n : Nat) : Char := Nat.digitChar (n % 16)

/-- Two lower-case hex digit characters of one byte. -/
def byteChars (b : Nat) : List Char := [hexChar (b / 16), hexChar b]

/-- Model of `_0xstring` on a byte string: `HexBytes(bs).hex()`, the `0x`-prefixed
lower-case hex rendering. -/
def hex0x (bs : List Nat) : String :=
  "0x" ++ String.mk (bs.flatMap byteChars)

/-- Model of `_0xstring` on a hex string: re-parse and re-render it (`HexBytes(s).hex()`);
the error models the `ValueError` raised on non-hex input. -/
def norm0x (s : String) : Except Err String :=
  match hexToBytes? s with
  | some bs => .ok (hex0x bs)
  | none => .error .pyValueError

/-- Auxiliary recursion for `natToBEBytes`, structural on a fuel argument
so that it evaluates by kernel reduction; `fuel = n` always suffices since
the value shrinks by a factor of 256 per step. -/
def natToBEBytesAux : Nat → Nat → List Nat
  | 0, n => [n % 256]
  | fuel + 1, n => if n < 256 then [n] else natToBEBytesAux fuel (n / 256) ++ [n % 256]

/-- Minimal big-endian byte rendering of a natural number, as produced by
`HexBytes(n)` for an `int` `n` (hexbytes converts an int through `hex(n)`,
left-padding the digit run to even length, so `0` becomes `[0x00]`). -/
def natToBEBytes (n : Nat) : List Nat := natToBEBytesAux n n

/-- Model of `_0xstring` on a Python `int`: `HexBytes(n).hex()`, i.e. the hex string
of the *number* `n` (minimal big-endian bytes), not a buffer of `n` bytes. -/
def int0x (n : Nat) : String := hex0x (natToBEBytes n)

/-- Python `int(s, 16)`: optional `0x`/`0X` prefix then a nonempty run of
hex digits; `none` models the raised `ValueError`. -/
def hexToNat? (s : String) : Option Nat :=
  let cs := s.toList
  let cs := if cs.take 2 = ['0', 'x'] ∨ cs.take 2 = ['0', 'X'] then cs.drop 2 else cs
  if cs = [] then none
  else cs.foldl (fun acc? c => do
    let acc ← acc?
    let v ← hexVal? c
    some (acc * 16 + v)) (some 0)

/-! ### ABI parameters and the type-signature builder `_params` -/

mutual
/-- One entry of an ABI `inputs` list.  `none` in a field models the
corresponding dictionary key being absent.  The components are a
`ParamList` (an inlined copy of `List Param`, mutually inductive with
`Param`) so that the recursive signature builder is structurally recursive
and evaluates by kernel reduction. -/
inductive Param where
  | mk (name : Option String) (typ : Option String) (indexed : Option Bool)
      (components : Option ParamList)
/-- A list of `Param`, inlined for the mutual induction. -/
inductive ParamList where
  | nil
  | cons (hd : Param) (tl : ParamList)
end

def Param.name : Param → Option String
  | .mk n _ _ _ => n

def Param.typ : Param → Option String
  | .mk _ t _ _ => t

def Param.indexed : Param → Option Bool
  | .mk _ _ ix _ => ix

def Param.components : Param → Option ParamList
  | .mk _ _ _ cs => cs

/-- View a `ParamList` as a `List Param`. -/
def ParamList.toList : ParamList → List Param
  | .nil => []
  | .cons p ps => p :: ps.toList

/-- Build a `ParamList` from a `List Param`. -/
def ParamList.ofList : List Param → ParamList
  | [] => .nil
  | p :: ps => .cons p (ParamList.ofList ps)

/-- Longest leading run of decimal digits, and the rest. -/
def spanDigits : List Char → List Char × List Char
  | [] => ([], [])
  | c :: rest =>
    if c.isDigit then
      let (ds, tl) := spanDigits rest
      (c :: ds, tl)
    else ([], c :: rest)

/-- The regex `tuple(\[(\d*)\])?` applied with `re.match` (prefix match) to
the character list of a type string.  `none`: no match (does not start with
`tuple`); `some none`: matched with the bracket group absent;
`some (some ds)`: matched `tuple[ds]` with digit run `ds` (possibly empty). -/
def tupleMatchL : List Char → Option (Option String)
  | 't' :: 'u' :: 'p' :: 'l' :: 'e' :: rest =>
    some (match rest with
      | '[' :: rest2 =>
        (match spanDigits rest2 with
          | (ds, ']' :: _) => some (String.mk ds)
          | _ => none)
      | _ => none)
  | _ => none

def tupleMatch (s : String) : Option (Option String) := tupleMatchL s.toList

/-- The canonical rendering of the captured array-suffix group:
`f"[{_size}]" if _array is not None else ""`. -/
def tupleTail : Option String → String
  | some size => "[" ++ size ++ "]"
  | none => ""

/-- The builder `_params`: render an ABI parameter list into canonical type strings.
A parameter whose type prefix-matches the tuple regex is rendered as the
parenthesized comma-joined recursive rendering of its components followed
by the captured array suffix; any other parameter contributes its type
string unchanged.  Missing `type` or `components` keys raise `KeyError`.
Defined on the inlined list representation so that the recursion is
structural. -/
def paramsPL : ParamList → Except Err (List String)
  | .nil => .ok []
  | .cons (.mk _ otyp _ ocomps) rest =>
    match otyp with
    | none => .error (.keyError "type")
    | some t =>
      match tupleMatch t with
      | none =>
        match paramsPL rest with
        | .error e => .error e
        | .ok ts => .ok (t :: ts)
      | some grp =>
        match ocomps with
        | none => .error (.keyError "components")
        | some comps =>
          match paramsPL comps with
          | .error e => .error e
          | .ok inner =>
            match paramsPL rest with
            | .error e => .error e
            | .ok ts =>
              .ok (("(" ++ String.intercalate "," inner ++ ")" ++ tupleTail grp) :: ts)

/-- The builder `_params` on an ordinary list of parameters. -/
def params' (ps : List Param) : Except Err (List String) := paramsPL (ParamList.ofList ps)


/-! ### Logs, events and the shared `_decode` path -/

/-- One decoded output field (`decode_log` result entries): variable name,
declared type, optional components, decoded (or opaque) value, and whether
the value could be decoded to a scalar. -/
structure Field where
  name : String
  typ : String
  components : Option ParamList
  value : Value
  decoded : Bool

/-- One value of the topic map: event name plus declared inputs. -/
structure EventAbi where
  name : String
  inputs : List Param

/-- The topic map built by `get_topic_map`: a Python dict from `0x`-hex
topic strings to event descriptions, embedded as an association list with
unique keys (first match wins on lookup, as for a dict). -/
def TopicMap : Type := List (String × EventAbi)

/-- A raw receipt log.  `address` and `data` are kept in the surface form
the RPC layer supplies (a string), topics as raw 32-byte words; the three
optional passthrough entries model the presence of the corresponding keys. -/
structure Log where
  address : String
  topics : List (List Nat)
  data : String
  logIndex : Option Int
  blockNumber : Option Int
  transactionIndex : Option Int

/-- The `data` entry of a returned event: decoded field list, or the raw
hex string for an undecoded placeholder. -/
inductive EventData where
  | fields (fs : List Field)
  | raw (s : String)

/-- A returned event.  `topics` is present only on undecoded placeholders;
the three trailing options are the passthrough metadata entries. -/
structure Event where
  name : Option String
  address : Option String
  decoded : Bool
  data : EventData
  topics : Option (List String)
  logIndex : Option Int
  blockNumber : Option Int
  transactionIndex : Option Int

/-- Reading `i["indexed"]` on a parameter dictionary. -/
def getIndexed (p : Param) : Except Err Bool :=
  match p.indexed with
  | some b => .ok b
  | none => .error (.keyError "indexed")

/-- Python `list.pop()`: split off the last element. -/
def popLast : List α → Option (List α × α)
  | [] => none
  | [a] => some ([], a)
  | a :: b :: rest =>
    match popLast (b :: rest) with
    | some (ys, x) => some (a :: ys, x)
    | none => none

/-- Final rendering of a decoded value: Python byte strings are rendered
as `0x`-hex strings (`if isinstance(value, bytes): value = _0xstring(value)`). -/
def renderValue : Value → Value
  | .bytes bs => .str (hex0x bs)
  | v => v

/-- Message raised by `_decode` when `indexed_count < len(topics)`. -/
def msgNotMarkedAsIndexed : String :=
  "Event log does not contain enough topics for the given ABI - this is usually because an event argument is not marked as indexed"

/-- Message raised by `_decode` when `indexed_count > len(topics)`. -/
def msgIncorrectlyMarkedAsIndexed : String :=
  "Event log contains more topics than expected for the given ABI - this is usually because an event argument is incorrectly marked as indexed"

/-- The result-assembly loop at the end of `_decode`: walk the inputs in
declaration order; an indexed input (while topics remain) consumes the last
element of the reversed topic list and is single-decoded against its raw
type (`eth_abi.decode([type], word)[0]`), falling back to the opaque hex
encoding with `decoded=False` when the codec reports
`InsufficientDataBytes`, `NoEntriesFound` or `OverflowError`; any other
input consumes the last element of the reversed decoded-data list. -/
def assemble (dec : Dec) : List Param → List (List Nat) → List Value → Except Err (List Field)
  | [], _, _ => .ok []
  | i :: rest, topicsRev, decodedRev =>
    match i.name with
    | none => .error (.keyError "name")
    | some nm =>
      match i.typ with
      | none => .error (.keyError "type")
      | some t =>
        match topicsRev with
        | [] =>
          -- `topics` is falsy: take the next unindexed value
          (match popLast decodedRev with
           | none => .error .pyIndexError
           | some (decodedRev', v) =>
             match assemble dec rest [] decodedRev' with
             | .ok fs => .ok (⟨nm, t, i.components, renderValue v, true⟩ :: fs)
             | .error e => .error e)
        | _ :: _ =>
          match getIndexed i with
          | .error e => .error e
          | .ok b =>
            if b then
              match popLast topicsRev with
              | none => .error .pyIndexError   -- unreachable: the list is nonempty
              | some (topicsRev', encoded) =>
                match dec [t] encoded with
                | .ok [] => .error .pyIndexError   -- `[0]` on an empty decode result
                | .ok (v :: _) =>
                  (match assemble dec rest topicsRev' decodedRev with
                   | .ok fs => .ok (⟨nm, t, i.components, renderValue v, true⟩ :: fs)
                   | .error e => .error e)
                | .error .insufficientDataBytes | .error .noEntriesFound
                | .error .overflowError =>
                  -- a value that uses multiple slots: keep the raw encoding
                  (match assemble dec rest topicsRev' decodedRev with
                   | .ok fs => .ok (⟨nm, t, i.components, .str (hex0x encoded), false⟩ :: fs)
                   | .error e => .error e)
                | .error e => .error (.codecRaw e)
            else
              match popLast decodedRev with
              | none => .error .pyIndexError
              | some (decodedRev', v) =>
                match assemble dec rest topicsRev decodedRev' with
                | .ok fs => .ok (⟨nm, t, i.components, renderValue v, true⟩ :: fs)
                | .error e => .error e

/-- The indexed/unindexed splitting policy at the top of `_decode`: the
special case (indexed inputs declared but no topics supplied) keeps the
whole input list; a count mismatch raises `EventError`; otherwise the
unindexed subset is kept in declaration order. -/
def splitPolicy (inputs : List Param) (flags : List Bool) (topics : List (List Nat)) :
    Except Err (List Param) :=
  let indexedCount := (flags.filter id).length
  if indexedCount ≠ 0 ∧ topics = [] then
    -- special case: the ABI has indexed values but the log does not
    .ok inputs
  else if indexedCount < topics.length then
    .error (.eventError msgNotMarkedAsIndexed)
  else if indexedCount > topics.length then
    .error (.eventError msgIncorrectlyMarkedAsIndexed)
  else
    .ok (((inputs.zip flags).filter (fun pf => !pf.2)).map (fun pf => pf.1))

/-- The shared path `_decode(inputs, topics, data)`: the common decoding path of
`decode_log` and `decode_traceTransaction`. -/
def pyDecode (dec : Dec) (inputs : List Param) (topics : List (List Nat)) (data : String) :
    Except Err (List Field) :=
  match inputs.mapM getIndexed with
  | .error e => .error e
  | .ok flags =>
    match splitPolicy inputs flags topics with
    | .error e => .error e
    | .ok unindexedParams =>
      match params' unindexedParams with
      | .error _ => .error (.abiError "Invalid ABI")   -- except (KeyError, TypeError)
      | .ok uts =>
        let data := if uts ≠ [] ∧ data = "0x" then int0x (uts.length * 32) else data
        match hexToBytes? data with
        | none => .error .pyValueError
        | some buf =>
          match dec uts buf with
          | .error .insufficientDataBytes => .error (.eventError "Event data has insufficient length")
          | .error .nonEmptyPaddingBytes => .error (.eventError "Malformed data field in event log")
          | .error (.invalidPointer m) => .error (.eventError m)
          | .error .overflowError => .error (.eventError "Cannot decode event due to overflow error")
          | .error .noEntriesFound => .error (.codecRaw .noEntriesFound)
          | .ok vs => assemble dec inputs topics.reverse vs.reverse

/-- Embeds `decode_log(log, topic_map)`. -/
def decode_log (dec : Dec) (checksum : String → String) (log : Log) (tm : TopicMap) :
    Except Err Event :=
  match log.topics with
  | [] => .error (.eventError "Cannot decode an anonymous event")
  | t0 :: restT =>
    match List.lookup (hex0x t0) tm with
    | none => .error (.unknownEvent "Event topic is not present in given ABI")
    | some abi =>
      match pyDecode dec abi.inputs restT log.data with
      | .ok fs =>
        .ok { name := some abi.name, address := some (checksum log.address), decoded := true,
              data := .fields fs, topics := none,
              logIndex := log.logIndex, blockNumber := log.blockNumber,
              transactionIndex := log.transactionIndex }
      | .error (.keyError _) => .error (.eventError "Invalid event")
      | .error .pyTypeError => .error (.eventError "Invalid event")
      | .error e => .error e

/-- The undecoded placeholder built by `decode_logs` for a log whose topic
is missing or unknown, when `allow_undecoded` holds. -/
def undecodedLogEvent (checksum : String → String) (item : Log) (topics : List String)
    (allow : Bool) : Except Err Event :=
  if !allow then .error (.unknownEvent "Log contains undecodable event")
  else
    match norm0x item.data with
    | .error e => .error e
    | .ok d =>
      .ok { name := none, address := some (checksum item.address), decoded := false,
            data := .raw d, topics := some topics,
            logIndex := item.logIndex, blockNumber := item.blockNumber,
            transactionIndex := item.transactionIndex }

/-- The per-log dispatch of `decode_logs`: a log with no topics or an
unknown first topic goes through the `allow_undecoded` policy, any other
log through `decode_log`. -/
def decodeLogsItem (dec : Dec) (checksum : String → String) (tm : TopicMap) (allow : Bool)
    (item : Log) : Except Err Event :=
  let topics := item.topics.map hex0x
  match topics with
  | [] => undecodedLogEvent checksum item topics allow
  | t0 :: _ =>
    if (List.lookup t0 tm).isSome then decode_log dec checksum item tm
    else undecodedLogEvent checksum item topics allow

/-- Embeds `decode_logs(logs, topic_map, allow_undecoded)`. -/
def decode_logs (dec : Dec) (checksum : String → String) (tm : TopicMap) (allow : Bool) :
    List Log → Except Err (List Event)
  | [] => .ok []
  | item :: rest =>
    match decodeLogsItem dec checksum tm allow item with
    | .error e => .error e
    | .ok ev =>
      match decode_logs dec checksum tm allow rest with
      | .error e => .error e
      | .ok evs => .ok (ev :: evs)

/-! ### Topic registry -/

/-- A raw ABI entry describing an event (`event_abi` dictionary):
`type` and the fields used by `get_log_topic` and `get_topic_map`.
`anonymous` models the truthiness of `.get("anonymous")` (absent means
false). -/
structure EventAbiDict where
  typ : Option String
  name : Option String
  anonymous : Bool
  inputs : Option (List Param)

/-- Embeds `get_log_topic(event_abi)`, with the external `keccak` taken as an
argument (it is applied to the UTF-8 encoded signature string; encoding is
injective, so the hash is modeled directly on the string). -/
def get_log_topic (keccak : String → List Nat) (e : EventAbiDict) : Except Err String :=
  if e.anonymous then .error (.abiError "Anonymous events do not have a topic")
  else
    match e.inputs with
    | none => .error (.keyError "inputs")
    | some inputs =>
      match params' inputs with
      | .error err => .error err   -- no handler here: a KeyError propagates raw
      | .ok types =>
        match e.name with
        | none => .error (.keyError "name")
        | some nm =>
          .ok (hex0x (keccak (nm ++ "(" ++ String.intercalate "," types ++ ")")))

/-- The filtering comprehension of `get_topic_map`:
`[i for i in abi if i["type"] == "event" and not i.get("anonymous")]`. -/
def filterEvents : List EventAbiDict → Except Err (List EventAbiDict)
  | [] => .ok []
  | e :: rest =>
    match e.typ with
    | none => .error (.keyError "type")
    | some t =>
      match filterEvents rest with
      | .error err => .error err
      | .ok rest' => .ok (if t = "event" ∧ !e.anonymous then e :: rest' else rest')

/-- Python dict insertion: replace the value of an existing key in place,
otherwise append. -/
def dictInsert (m : TopicMap) (k : String) (v : EventAbi) : TopicMap :=
  match m with
  | [] => [(k, v)]
  | (k', v') :: rest => if k' = k then (k, v) :: rest else (k', v') :: dictInsert rest k v

/-- The dict comprehension of `get_topic_map`: for each filtered event,
compute its topic and record `{"name": ..., "inputs": ...}`. -/
def buildTopicMap (keccak : String → List Nat) : List EventAbiDict → TopicMap →
    Except Err TopicMap
  | [], acc => .ok acc
  | e :: rest, acc =>
    match get_log_topic keccak e with
    | .error err => .error err
    | .ok key =>
      match e.name with
      | none => .error (.keyError "name")
      | some nm =>
        match e.inputs with
        | none => .error (.keyError "inputs")
        | some ins => buildTopicMap keccak rest (dictInsert acc key ⟨nm, ins⟩)

/-- Embeds `get_topic_map(abi)`: filter to non-anonymous events, build the topic
map, and wrap `KeyError`/`TypeError` as `ABIError("Invalid ABI")`. -/
def get_topic_map (keccak : String → List Nat) (abi : List EventAbiDict) :
    Except Err TopicMap :=
  match (match filterEvents abi with
         | .error e => (.error e : Except Err TopicMap)
         | .ok evs => buildTopicMap keccak evs []) with
  | .ok m => .ok m
  | .error (.keyError _) => .error (.abiError "Invalid ABI")
  | .error .pyTypeError => .error (.abiError "Invalid ABI")
  | .error e => .error e

/-! ### Trace walker -/

/-- One `structLogs` step of a Geth trace.  `stack` and `memory` are lists
of hex-word strings; `none` models the dictionary key being absent. -/
structure Step where
  op : String
  depth : Int
  stack : Option (List String)
  memory : Option (List String)

/-- Python `st[-2]`: the second-from-top stack word, or `none` (IndexError)
when fewer than two entries exist. -/
def penult? (st : List String) : Option String :=
  if 2 ≤ st.length then st[st.length - 2]? else none

/-- Python `xs[-3 : -3 - k : -1]`: the `k` topic words beneath the two
offset/length words, top-down.  Slicing clamps instead of raising, so a
stack that is long enough for offset/length but too short for `k` topics
yields a silently truncated list. -/
def logTopicsSlice (xs : List α) (k : Nat) : List α :=
  let n := xs.length
  if n < 3 then []
  else if 3 + k ≤ n then ((xs.drop (n - 2 - k)).take k).reverse
  else (xs.take (n - 2)).reverse

/-- Python `s[-40:]`: the last `n` characters of a string. -/
def strTakeRight (s : String) (n : Nat) : String :=
  String.mk (s.toList.drop (s.toList.length - n))

/-- Python `int(c)` for one character: its decimal digit value (48 is the
code of `0`), `none` (ValueError) otherwise. -/
def digitVal? (c : Char) : Option Nat :=
  match c.isDigit with
  | true => some (c.toNat - 48)
  | false => none

/-- Python `op.startswith("LOG")`, on the character list so that it
evaluates by kernel reduction. -/
def opIsLOG (op : String) : Bool := List.isPrefixOf ['L', 'O', 'G'] op.toList

/-- The address bookkeeping of `decode_traceTransaction`, performed only
when an initial address was given: on a depth increase push the created or
called contract address (for `CREATE`/`CREATE2`, from the top stack word of
the next step back at the caller's depth; otherwise from the second stack
word of the previous step); on a depth decrease pop.  `suffix` is
`struct_logs[i:]`, the trace from the current step on. -/
def addrUpdate (checksum : String → String) (last step : Step) (suffix : List Step)
    (addrs : List (Option String)) : Except Err (List (Option String)) :=
  if last.depth < step.depth then
    if last.op = "CREATE" ∨ last.op = "CREATE2" then
      match suffix.find? (fun x => x.depth == last.depth) with
      | none => .error .pyStopIteration
      | some outStep =>
        match outStep.stack with
        | none => .error (.keyError "stack")
        | some st =>
          match st.getLast? with
          | none => .error .pyIndexError
          | some w => .ok (addrs ++ [some (checksum ("0x" ++ strTakeRight w 40))])
    else
      match last.stack with
      | none => .error (.keyError "stack")
      | some st =>
        match penult? st with
        | none => .error .pyIndexError
        | some w => .ok (addrs ++ [some (checksum ("0x" ++ strTakeRight w 40))])
  else if step.depth < last.depth then
    match addrs with
    | [] => .error .pyIndexError
    | _ => .ok addrs.dropLast
  else .ok addrs

/-- The undecoded placeholder built inside the trace walk when the topic is
missing or unknown, when `allow_undecoded` holds; the event address is the
top of the tracked address stack. -/
def undecodedTraceEvent (allow : Bool) (topics : List String) (data : String)
    (addrs : List (Option String)) : Except Err (List Event) :=
  if !allow then .error (.unknownEvent "Log contains undecodable event")
  else
    match addrs.getLast? with
    | none => .error .pyIndexError
    | some a => .ok [⟨none, a, false, .raw data, some topics, none, none, none⟩]

/-- Processing of one trace step past the address bookkeeping: a step whose
opcode is not a LOG variant contributes nothing; a LOG step has offset and
length read from the top two stack words, the topic count from the opcode
suffix, the topic words from the slice beneath, and the data sliced out of
the joined memory words; the extracted raw log is then decoded or, under
the `allow_undecoded` policy, returned as a placeholder. -/
def traceStep (dec : Dec) (tm : TopicMap) (allow : Bool) (addrs : List (Option String))
    (step : Step) : Except Err (List Event) :=
  if !opIsLOG step.op then .ok []
  else
    match step.stack with
    | none => .error (.structLogError "StructLog has no stack")
    | some st =>
      match st.getLast? with
      | none => .error (.structLogError "Malformed stack")
      | some offS =>
        match hexToNat? offS with
        | none => .error .pyValueError
        | some offset =>
          match penult? st with
          | none => .error (.structLogError "Malformed stack")
          | some lenS =>
            match hexToNat? lenS with
            | none => .error .pyValueError
            | some len =>
              match step.op.toList.getLast? with
              | none => .error .pyIndexError   -- unreachable: the opcode starts with LOG
              | some c =>
                match digitVal? c with
                | none => .error .pyValueError
                | some topicLen =>
                  match (logTopicsSlice st topicLen).mapM hexToBytes? with
                  | none => .error .pyValueError
                  | some topicsB =>
                    let topicsS := topicsB.map hex0x
                    match step.memory with
                    | none => .error (.structLogError "Malformed memory")
                    | some mem =>
                      match hexToBytes? (String.join mem) with
                      | none => .error .pyValueError
                      | some memBytes =>
                        let data := hex0x ((memBytes.drop offset).take len)
                        match topicsS with
                        | [] => undecodedTraceEvent allow topicsS data addrs
                        | t0 :: _ =>
                          match List.lookup t0 tm with
                          | none => undecodedTraceEvent allow topicsS data addrs
                          | some abi =>
                            match pyDecode dec abi.inputs (topicsB.drop 1) data with
                            | .error e => .error e
                            | .ok fs =>
                              match addrs.getLast? with
                              | none => .error .pyIndexError
                              | some a =>
                                .ok [⟨some abi.name, a, true, .fields fs, none,
                                      none, none, none⟩]

/-- The walk over `struct_logs[1:]`, carrying the previous step and the
address stack. -/
def traceWalk (dec : Dec) (checksum : String → String) (tm : TopicMap) (allow : Bool)
    (tracking : Bool) : Step → List Step → List (Option String) → Except Err (List Event)
  | _, [], _ => .ok []
  | last, step :: rest, addrs =>
    match (if tracking then addrUpdate checksum last step (step :: rest) addrs
           else .ok addrs) with
    | .error e => .error e
    | .ok addrs' =>
      match traceStep dec tm allow addrs' step with
      | .error e => .error e
      | .ok evs =>
        match traceWalk dec checksum tm allow tracking step rest addrs' with
        | .error e => .error e
        | .ok more => .ok (evs ++ more)

/-- Embeds `decode_traceTransaction(struct_logs, topic_map, allow_undecoded,
initial_address)`.  The address stack is seeded with the checksummed
initial address, or a single `None`; reading `struct_logs[0]` as the
initial `last_step` raises `IndexError` on an empty trace. -/
def decode_traceTransaction (dec : Dec) (checksum : String → String) (structLogs : List Step)
    (tm : TopicMap) (allow : Bool) (initialAddress : Option String) :
    Except Err (List Event) :=
  let addrs : List (Option String) :=
    match initialAddress with
    | some a => [some (checksum a)]
    | none => [none]
  match structLogs with
  | [] => .error .pyIndexError
  | s0 :: rest => traceWalk dec checksum tm allow initialAddress.isSome s0 rest addrs

/-! ### An executable model of the external codec

The ABI word codec is an external library; the specification (section 4.3)
pins down only its interface and failure taxonomy.  For concrete
evaluation the following model decodes every type as one 32-byte
big-endian word and reports `InsufficientDataBytes` when the buffer is
shorter than 32 bytes per type, which is the behaviour the specification
requires for static types. -/

/-- Big-endian natural number of a byte string. -/
def beNat (bs : List Nat) : Nat := bs.foldl (fun a b => a * 256 + b) 0

/-- Modelled from the spec: the external `eth_abi.decode` boundary
(sections 4.3 and 6), restricted to static one-word types: fails with
`InsufficientDataBytes` when the buffer is shorter than `32 * len(types)`,
otherwise decodes consecutive 32-byte words as big-endian integers. -/
def modelDecode : Dec := fun types buf =>
  if buf.length < 32 * types.length then .error .insufficientDataBytes
  else .ok ((List.range types.length).map fun i => .int (beNat ((buf.drop (32 * i)).take 32)))

/-! ### Helper lemmas -/

theorem popLast_append_singleton (xs : List α) (x : α) : popLast (xs ++ [x]) = some (xs, x) := by
  induction xs with
  | nil => rfl
  | cons a xs ih =>
    cases xs with
    | nil => rfl
    | cons b t =>
      simp only [List.cons_append, List.append_eq, popLast] at ih ⊢
      rw [ih]

theorem popLast_reverse_cons (x : α) (xs : List α) :
    popLast ((x :: xs).reverse) = some (xs.reverse, x) := by
  rw [List.reverse_cons, popLast_append_singleton]

/-- The field list that the specification describes for an all-unindexed
decode: one field per input, in declaration order, carrying the input's
name, type and optional components, the next decoded value (bytes rendered
as hex) and `decoded=true`.  `none` when an input lacks its `name` or
`type` key or the value count does not match. -/
def specDeclOrderFields : List Param → List Value → Option (List Field)
  | [], [] => some []
  | p :: ps, v :: vs =>
    (match p.name, p.typ with
     | some nm, some t =>
       match specDeclOrderFields ps vs with
       | some fs => some (⟨nm, t, p.components, renderValue v, true⟩ :: fs)
       | none => none
     | _, _ => none)
  | _, _ => none

/-- With no topics left, the assembly loop pops the reversed decoded list
back into declaration order. -/
theorem assemble_no_topics (dec : Dec) :
    ∀ (inputs : List Param) (vals : List Value) (fields : List Field),
      specDeclOrderFields inputs vals = some fields →
      assemble dec inputs [] vals.reverse = .ok fields := by
  intro inputs
  induction inputs with
  | nil =>
    intro vals fields h
    cases vals with
    | nil =>
      simp only [specDeclOrderFields, Option.some.injEq] at h
      subst h
      rfl
    | cons v vs => simp [specDeclOrderFields] at h
  | cons p ps ih =>
    intro vals fields h
    cases vals with
    | nil => simp [specDeclOrderFields] at h
    | cons v vs =>
      simp only [specDeclOrderFields] at h
      cases hnm : p.name with
      | none => rw [hnm] at h; simp at h
      | some nm =>
        cases htyp : p.typ with
        | none => rw [hnm, htyp] at h; simp at h
        | some t =>
          rw [hnm, htyp] at h
          cases hrec : specDeclOrderFields ps vs with
          | none => rw [hrec] at h; simp at h
          | some fs =>
            rw [hrec] at h
            simp only [Option.some.injEq] at h
            subst h
            obtain ⟨pn, pt, pix, pcs⟩ := p
            simp only [Param.name] at hnm
            simp only [Param.typ] at htyp
            subst hnm; subst htyp
            simp only [assemble, popLast_reverse_cons]
            rw [ih vs fs hrec]
            rfl

/-- Evaluation through the `_decode` path when the zero-topics special
case applies and the codec succeeds. -/
theorem pyDecode_no_topics (dec : Dec) (inputs : List Param) (data : String)
    (flags : List Bool) (uts : List String) (buf : List Nat) (vals : List Value)
    (fields : List Field)
    (hflags : inputs.mapM getIndexed = .ok flags)
    (hcnt : 0 < (flags.filter id).length)
    (hparams : params' inputs = .ok uts)
    (hbuf : hexToBytes? (if uts ≠ [] ∧ data = "0x" then int0x (uts.length * 32) else data) =
      some buf)
    (hdec : dec uts buf = .ok vals)
    (hfields : specDeclOrderFields inputs vals = some fields) :
    pyDecode dec inputs [] data = .ok fields := by
  have hsp : splitPolicy inputs flags [] = .ok inputs := by
    unfold splitPolicy
    exact if_pos ⟨by omega, rfl⟩
  simp only [pyDecode, hflags, hsp, hparams, hbuf, hdec, List.reverse_nil]
  exact assemble_no_topics dec inputs vals fields hfields

/-! ### Concrete inputs used by witnesses and counterexamples -/

/-- An unindexed `uint256` parameter named `a`. -/
def pUnindexed : Param := .mk (some "a") (some "uint256") (some false) none

/-- An indexed `uint256` parameter named `b`. -/
def pIndexed : Param := .mk (some "b") (some "uint256") (some true) none

/-- A 32-byte topic word. -/
def w1 : List Nat := List.replicate 31 0 ++ [1]

/-- Another 32-byte topic word. -/
def w2 : List Nat := List.replicate 31 0 ++ [2]

/-- Holds (`true`) exactly on results that are an `ABIError`. -/
def resultIsABIError : Except Err String → Bool
  | .error (.abiError _) => true
  | _ => false

/-! ### Claims -/

/-- C1: the claim says that for a log whose unindexed type list is
non-empty but whose data buffer is the marker `"0x"`, `_decode`
synthesizes a zero-filled buffer of `32 * count` bytes so that the decode
succeeds with zero values.  The code instead computes
`_0xstring(32 * count)`, which is the hex string of the *number*
`32 * count` (`"0x20"` for one unindexed input, a one-byte buffer), so the
decode fails with `EventError("Event data has insufficient length")`.
This theorem evaluates the code at the failing input
(`inputs = [unindexed uint256]`, `topics = []`, `data = "0x"`), both
through `_decode` and through `decode_log`, and records that the
synthesized string is `"0x20"`, not 32 zero bytes. -/
theorem claim_C1 :
    pyDecode modelDecode [pUnindexed] [] "0x" =
      .error (.eventError "Event data has insufficient length") ∧
    decode_log modelDecode (fun s => s)
      ⟨"0xaa", [w1], "0x", none, none, none⟩ [(hex0x w1, ⟨"E", [pUnindexed]⟩)] =
      .error (.eventError "Event data has insufficient length") ∧
    int0x (1 * 32) = "0x20" ∧
    int0x (1 * 32) ≠ hex0x (List.replicate 32 0) :=
  ⟨rfl, rfl, rfl, by decide⟩

/-- A non-LOG step used as the initial `last_step` of two-step traces. -/
def stepDummy : Step := ⟨"PUSH1", 1, some [], some []⟩

/-- A LOG2 step whose stack holds only the offset and length words, with no
topic words beneath them. -/
def stepLog2Short : Step := ⟨"LOG2", 1, some ["0x0", "0x0"], some []⟩

/-- C4 counterexample: a LOG2 step (declared topic count 2) whose stack has
only the two offset/length words does not fail with `StructLogError`: the
Python topic slice `stack[-3 : -5 : -1]` silently clamps to the empty
list, so with `allow_undecoded` the walk emits an event with zero topics —
fewer than the opcode suffix declares. -/
theorem claim_C4_counterexample :
    decode_traceTransaction modelDecode (fun s => s) [stepDummy, stepLog2Short] [] true none =
      .ok [⟨none, none, false, .raw "0x", some [], none, none, none⟩] := rfl

/-- C4 amended: a LOG step fails with
`StructLogError("StructLog has no stack")` when the step has no stack key,
and with `StructLogError("Malformed stack")` when the stack has fewer than
the two offset/length words (provided its entries parse as hex, since
`int(stack[-1], 16)` runs first); but a stack holding offset and length
while lacking topic words does not raise — the topic list is silently
truncated instead (see the counterexample). -/
theorem claim_C4_amended (dec : Dec) (checksum : String → String) (tm : TopicMap)
    (allow : Bool) (d0 : Step) (op : String) (dep : Int) (ost : Option (List String))
    (mem : Option (List String))
    (hop : opIsLOG op = true)
    (hshort : match ost with
              | none => True
              | some st => st.length < 2 ∧ ∀ x ∈ st, (hexToNat? x).isSome) :
    decode_traceTransaction dec checksum [d0, ⟨op, dep, ost, mem⟩] tm allow none =
      .error (.structLogError
        (match ost with
         | none => "StructLog has no stack"
         | some _ => "Malformed stack")) := by
  have hts : traceStep dec tm allow [none] ⟨op, dep, ost, mem⟩ =
      .error (.structLogError
        (match ost with
         | none => "StructLog has no stack"
         | some _ => "Malformed stack")) := by
    unfold traceStep
    simp only [hop, Bool.not_true, Bool.false_eq_true, if_false]
    cases ost with
    | none => rfl
    | some st =>
      simp only at hshort
      obtain ⟨hlen, hparse⟩ := hshort
      match st with
      | [] => rfl
      | [x] =>
        obtain ⟨n, hn⟩ := Option.isSome_iff_exists.mp (hparse x (by simp))
        simp only [List.getLast?_singleton, hn, penult?, List.length_singleton]
        rfl
      | x :: y :: t => exact absurd hlen (by simp_arith)
  simp only [decode_traceTransaction, Option.isSome_none, traceWalk, Bool.false_eq_true,
    if_false, hts]

/-- C4 amended witness: a LOG1 step with a one-word stack fails with
`StructLogError("Malformed stack")`. -/
theorem claim_C4_amended_witness :
    decode_traceTransaction modelDecode (fun s => s)
        [stepDummy, ⟨"LOG1", 1, some ["0x1"], some []⟩] [] true none =
      .error (.structLogError "Malformed stack") := by
  have h := claim_C4_amended modelDecode (fun s => s) [] true stepDummy "LOG1" 1
    (some ["0x1"]) (some []) (by decide) (by constructor <;> decide)
  simpa using h

theorem except_bind_ok {ε α β : Type} (x : α) (g : α → Except ε β) :
    ((Except.ok x : Except ε α) >>= g) = g x := rfl

theorem except_bind_error {ε α β : Type} (d : ε) (g : α → Except ε β) :
    ((Except.error d : Except ε α) >>= g) = Except.error d := rfl

theorem except_pure {ε α : Type} (x : α) : (pure x : Except ε α) = Except.ok x := rfl

/-- A successful monadic map over `Except` yields one output per input. -/
theorem mapM'_ok_length {ε α β : Type} (f : α → Except ε β) :
    ∀ (l : List α) (res : List β), List.mapM' f l = .ok res → res.length = l.length := by
  intro l
  induction l with
  | nil =>
    intro res h
    simp only [List.mapM'_nil, except_pure, Except.ok.injEq] at h
    subst h
    rfl
  | cons a l ih =>
    intro res h
    simp only [List.mapM'_cons] at h
    cases hf : f a with
    | error e => rw [hf, except_bind_error] at h; cases h
    | ok b =>
      rw [hf, except_bind_ok] at h
      cases hl : List.mapM' f l with
      | error e => rw [hl, except_bind_error] at h; cases h
      | ok bs =>
        rw [hl, except_bind_ok, except_pure, Except.ok.injEq] at h
        subst h
        simp [ih bs hl]

/-- C6: `decode_logs` is exactly the monadic map of the per-log dispatch
over the input list — one output entry per input log, in order (lengths
agree whenever it returns) — and the dispatch does what the claim says:
a log with no topics, or whose first (normalized) topic is not a key of
the topic map, fails with `UnknownEvent` when `allow_undecoded` is false
and otherwise becomes the placeholder with `name=None`, `decoded=False`,
the normalized topics and data, the checksummed address and the
passthrough metadata; every other log is decoded by `decode_log`. -/
theorem claim_C6 (dec : Dec) (checksum : String → String) (tm : TopicMap) (allow : Bool)
    (logs : List Log) :
    decode_logs dec checksum tm allow logs =
      List.mapM (decodeLogsItem dec checksum tm allow) logs ∧
    (∀ evs, decode_logs dec checksum tm allow logs = .ok evs → evs.length = logs.length) ∧
    (∀ item : Log, item.topics = [] →
      decodeLogsItem dec checksum tm allow item =
        (if allow then
          (match norm0x item.data with
           | .ok d => .ok ⟨none, some (checksum item.address), false, .raw d, some [],
                           item.logIndex, item.blockNumber, item.transactionIndex⟩
           | .error e => .error e)
         else .error (.unknownEvent "Log contains undecodable event"))) ∧
    (∀ (item : Log) (t0 : String) (restS : List String),
      item.topics.map hex0x = t0 :: restS → List.lookup t0 tm = none →
      decodeLogsItem dec checksum tm allow item =
        (if allow then
          (match norm0x item.data with
           | .ok d => .ok ⟨none, some (checksum item.address), false, .raw d,
                           some (t0 :: restS), item.logIndex, item.blockNumber,
                           item.transactionIndex⟩
           | .error e => .error e)
         else .error (.unknownEvent "Log contains undecodable event"))) ∧
    (∀ (item : Log) (t0 : String) (restS : List String),
      item.topics.map hex0x = t0 :: restS → (List.lookup t0 tm).isSome →
      decodeLogsItem dec checksum tm allow item = decode_log dec checksum item tm) := by
  have hmap : decode_logs dec checksum tm allow logs =
      List.mapM' (decodeLogsItem dec checksum tm allow) logs := by
    induction logs with
    | nil => rfl
    | cons item rest ih =>
      simp only [decode_logs, List.mapM'_cons, ih]
      cases h1 : decodeLogsItem dec checksum tm allow item with
      | error e => rw [except_bind_error]
      | ok ev =>
        rw [except_bind_ok]
        cases h2 : List.mapM' (decodeLogsItem dec checksum tm allow) rest with
        | error e => rw [except_bind_error]
        | ok evs => rw [except_bind_ok, except_pure]
  refine ⟨by rw [hmap, List.mapM'_eq_mapM], ?_, ?_, ?_, ?_⟩
  · intro evs h
    rw [hmap] at h
    exact mapM'_ok_length _ logs evs h
  · intro item htop
    unfold decodeLogsItem undecodedLogEvent
    rw [htop]
    cases allow <;> cases hnd : norm0x item.data <;> simp [hnd]
  · intro item t0 restS htop hlook
    unfold decodeLogsItem undecodedLogEvent
    rw [htop]
    simp only [hlook, Option.isSome_none, Bool.false_eq_true, if_false]
    cases allow <;> cases hnd : norm0x item.data <;> simp [hnd]
  · intro item t0 restS htop hlook
    unfold decodeLogsItem
    rw [htop]
    simp [hlook]

/-- C6 witness: one undecodable log (unknown topic) with
`allow_undecoded = true` yields exactly one placeholder entry; the length
conjunct and per-item conjuncts are instantiated on it. -/
theorem claim_C6_witness :
    decode_logs modelDecode (fun s => s) [] true [⟨"0xaa", [w1], "0x", none, none, none⟩] =
      List.mapM (decodeLogsItem modelDecode (fun s => s) [] true)
        [⟨"0xaa", [w1], "0x", none, none, none⟩] ∧
    decodeLogsItem modelDecode (fun s => s) [] true ⟨"0xaa", [w1], "0x", none, none, none⟩ =
      .ok ⟨none, some "0xaa", false, .raw "0x", some [hex0x w1], none, none, none⟩ ∧
    ([⟨none, some "0xaa", false, .raw "0x", some [hex0x w1], none, none, none⟩] :
      List Event).length = 1 := by
  refine ⟨(claim_C6 modelDecode (fun s => s) [] true
    [⟨"0xaa", [w1], "0x", none, none, none⟩]).1, ?_, ?_⟩
  · have h := (claim_C6 modelDecode (fun s => s) [] true
      [⟨"0xaa", [w1], "0x", none, none, none⟩]).2.2.2.1
      ⟨"0xaa", [w1], "0x", none, none, none⟩ (hex0x w1) [] rfl rfl
    simpa using h
  · have h := (claim_C6 modelDecode (fun s => s) [] true
      [⟨"0xaa", [w1], "0x", none, none, none⟩]).2.1
      [⟨none, some "0xaa", false, .raw "0x", some [hex0x w1], none, none, none⟩] (by rfl)
    exact h.trans (by rfl)

/-- With the address stack frozen at `[none]` (tracking disabled), every
event a single step contributes has `address = none`. -/
theorem traceStep_address_none (dec : Dec) (tm : TopicMap) (allow : Bool) (step : Step)
    (evs : List Event) (h : traceStep dec tm allow [none] step = .ok evs) :
    ∀ e ∈ evs, e.address = none := by
  intro e he
  unfold traceStep undecodedTraceEvent at h
  simp only [List.getLast?_singleton] at h
  repeat' split at h
  all_goals try cases h
  all_goals simp_all

/-- Over a whole walk with tracking disabled, the address stack stays
`[none]` and every extracted event has `address = none`. -/
theorem traceWalk_address_none (dec : Dec) (checksum : String → String) (tm : TopicMap)
    (allow : Bool) :
    ∀ (rest : List Step) (last : Step) (evs : List Event),
      traceWalk dec checksum tm allow false last rest [none] = .ok evs →
      ∀ e ∈ evs, e.address = none := by
  intro rest
  induction rest with
  | nil =>
    intro last evs h e he
    simp only [traceWalk, Except.ok.injEq] at h
    subst h
    cases he
  | cons step rest' ih =>
    intro last evs h e he
    simp only [traceWalk, Bool.false_eq_true, if_false] at h
    cases hts : traceStep dec tm allow [none] step with
    | error err => rw [hts] at h; cases h
    | ok evs1 =>
      rw [hts] at h
      cases hw : traceWalk dec checksum tm allow false step rest' [none] with
      | error err => rw [hw] at h; cases h
      | ok evs2 =>
        rw [hw] at h
        simp only [Except.ok.injEq] at h
        subst h
        rcases List.mem_append.mp he with h1 | h2
        · exact traceStep_address_none dec tm allow step evs1 hts e h1
        · exact ih step evs2 hw e h2

/-- C7: with `initial_address = None` the walk never derives addresses —
the address-bookkeeping branch is statically skipped, the address stack
stays `[None]` — and every extracted event, decoded or undecoded, has
`address = None`. -/
theorem claim_C7 (dec : Dec) (checksum : String → String) (steps : List Step)
    (tm : TopicMap) (allow : Bool) (evs : List Event)
    (h : decode_traceTransaction dec checksum steps tm allow none = .ok evs) :
    ∀ e ∈ evs, e.address = none := by
  cases steps with
  | nil => cases h
  | cons s0 rest =>
    simp only [decode_traceTransaction, Option.isSome_none] at h
    exact traceWalk_address_none dec checksum tm allow rest s0 evs h

/-- A LOG0 step with an offset/length-only stack, used by the C7 witness. -/
def stepLog0 : Step := ⟨"LOG0", 1, some ["0x0", "0x0"], some []⟩

/-- The placeholder event that `stepLog0` produces in an undecoded walk. -/
def evC7 : Event := ⟨none, none, false, .raw "0x", some [], none, none, none⟩

/-- C7 witness: a two-step trace with a LOG0 step, walked with
`initial_address = None`, yields one event whose address is `None`. -/
theorem claim_C7_witness :
    decode_traceTransaction modelDecode (fun s => s) [stepDummy, stepLog0] [] true none =
      .ok [evC7] ∧ evC7.address = none :=
  ⟨rfl, claim_C7 modelDecode (fun s => s) [stepDummy, stepLog0] [] true [evC7] rfl evC7
    (by simp)⟩

/-- The scanner `spanDigits` consumes exactly a digit run up to a closing bracket. -/
theorem spanDigits_digits_bracket (ds rest' : List Char) (h : ds.all Char.isDigit = true) :
    spanDigits (ds ++ ']' :: rest') = (ds, ']' :: rest') := by
  induction ds with
  | nil => rfl
  | cons d ds ih =>
    simp only [List.all_cons, Bool.and_eq_true] at h
    obtain ⟨hd, hds⟩ := h
    simp only [List.cons_append, List.append_eq, spanDigits, hd, if_true, ih hds]

/-- A stand-in hash function for concrete topic-registry evaluations. -/
def kc0 : String → List Nat := fun _ => List.replicate 32 0

/-- An event description whose single parameter lacks its `type` key. -/
def evNoType : EventAbiDict :=
  ⟨some "event", some "E", false, some [Param.mk (some "a") none (some true) none]⟩

/-- C5 counterexample: `get_log_topic` invokes the signature builder with
no exception handler, so an event whose parameter lacks its `type` key
raises the raw `KeyError("type")` — not an `ABIError` as the claim states
for every public path. -/
theorem claim_C5_counterexample :
    get_log_topic kc0 evNoType = .error (.keyError "type") ∧
    resultIsABIError (get_log_topic kc0 evNoType) = false :=
  ⟨rfl, rfl⟩

/-- C5 amended: when the signature builder fails with a `KeyError` (a
parameter without `type`, or a tuple without `components`), the failure
surfaces as `ABIError("Invalid ABI")` in `get_topic_map` and in the
`_decode` path used by `decode_log`/`decode_traceTransaction`, but
`get_log_topic` itself propagates the raw `KeyError` unconverted. -/
theorem claim_C5_amended (kc : String → List Nat) (dec : Dec) (k : String) (n : String)
    (inputs : List Param) (data : String) (flags : List Bool)
    (h1 : params' inputs = .error (.keyError k))
    (h2 : inputs.mapM getIndexed = .ok flags)
    (h3 : 0 < (flags.filter id).length) :
    get_log_topic kc ⟨some "event", some n, false, some inputs⟩ = .error (.keyError k) ∧
    get_topic_map kc [⟨some "event", some n, false, some inputs⟩] =
      .error (.abiError "Invalid ABI") ∧
    pyDecode dec inputs [] data = .error (.abiError "Invalid ABI") := by
  have hsp : splitPolicy inputs flags [] = .ok inputs := by
    unfold splitPolicy
    exact if_pos ⟨by omega, rfl⟩
  have hglt : get_log_topic kc ⟨some "event", some n, false, some inputs⟩ =
      .error (.keyError k) := by
    simp only [get_log_topic, h1]
    rfl
  refine ⟨hglt, ?_, ?_⟩
  · simp only [get_topic_map, filterEvents, buildTopicMap, hglt]
  · simp only [pyDecode, h2, hsp, h1]

/-- C5 amended witness: one indexed parameter without a `type` key. -/
theorem claim_C5_amended_witness :
    get_log_topic kc0 ⟨some "event", some "E2", false,
        some [Param.mk (some "a") none (some true) none]⟩ =
      .error (.keyError "type") ∧
    get_topic_map kc0 [⟨some "event", some "E2", false,
        some [Param.mk (some "a") none (some true) none]⟩] =
      .error (.abiError "Invalid ABI") ∧
    pyDecode modelDecode [Param.mk (some "a") none (some true) none] [] "0x" =
      .error (.abiError "Invalid ABI") :=
  claim_C5_amended kc0 modelDecode "type" "E2"
    [Param.mk (some "a") none (some true) none] "0x" [true] rfl rfl (by decide)

/-- C9: `decode_traceTransaction` on an empty step list reads
`struct_logs[0]` and raises a raw `IndexError` (not one of the module's
documented error classes), for every topic map, policy flag and initial
address; in particular an empty trace never yields an empty event list. -/
theorem claim_C9 (dec : Dec) (checksum : String → String) (tm : TopicMap) (allow : Bool)
    (ia : Option String) :
    decode_traceTransaction dec checksum [] tm allow ia = .error .pyIndexError := by
  cases ia <;> rfl

/-- C2: in `decode_log`, when the schema declares at least one indexed
input but the log supplies zero topics beyond `topics[0]`, the whole input
list is treated as unindexed: no count-mismatch `EventError` is raised and
every field — indexed or not — is decoded from the data buffer in
declaration order (the conclusion's field list is
`specDeclOrderFields inputs vals`, one field per input in order, each
`decoded=true`).  The hypotheses say only that the log is well formed and
the external codec succeeds on the unindexed buffer with one value per
input, which is what "decoding succeeds" presupposes. -/
theorem claim_C2 (dec : Dec) (checksum : String → String) (log : Log) (tm : TopicMap)
    (abi : EventAbi) (t0 : List Nat) (flags : List Bool) (uts : List String)
    (buf : List Nat) (vals : List Value) (fields : List Field)
    (htop : log.topics = [t0])
    (hlook : List.lookup (hex0x t0) tm = some abi)
    (hflags : abi.inputs.mapM getIndexed = .ok flags)
    (hcnt : 0 < (flags.filter id).length)
    (hparams : params' abi.inputs = .ok uts)
    (hbuf : hexToBytes? (if uts ≠ [] ∧ log.data = "0x" then int0x (uts.length * 32) else log.data)
      = some buf)
    (hdec : dec uts buf = .ok vals)
    (hfields : specDeclOrderFields abi.inputs vals = some fields) :
    decode_log dec checksum log tm =
      .ok ⟨some abi.name, some (checksum log.address), true, .fields fields, none,
           log.logIndex, log.blockNumber, log.transactionIndex⟩ := by
  obtain ⟨laddr, ltop, ldata, lli, lbn, lti⟩ := log
  simp only at htop hbuf
  subst htop
  have hpd := pyDecode_no_topics dec abi.inputs ldata flags uts buf vals fields
    hflags hcnt hparams hbuf hdec hfields
  simp only [decode_log, hlook, hpd]

set_option maxRecDepth 8000 in
/-- C2 witness: a two-field schema (one indexed, one unindexed `uint256`)
and a log with only `topics[0]` and a two-word buffer decodes both fields
from the data, in declaration order. -/
theorem claim_C2_witness :
    decode_log modelDecode (fun s => s)
        ⟨"0xaa", [w1], hex0x (w1 ++ w2), some 7, none, none⟩
        [(hex0x w1, ⟨"Transfer", [pIndexed, pUnindexed]⟩)] =
      .ok ⟨some "Transfer", some "0xaa", true,
           .fields [⟨"b", "uint256", none, .int 1, true⟩,
                    ⟨"a", "uint256", none, .int 2, true⟩],
           none, some 7, none, none⟩ :=
  claim_C2 modelDecode (fun s => s) _ _ ⟨"Transfer", [pIndexed, pUnindexed]⟩ w1
    [true, false] ["uint256", "uint256"] (w1 ++ w2) [.int 1, .int 2]
    [⟨"b", "uint256", none, .int 1, true⟩, ⟨"a", "uint256", none, .int 2, true⟩]
    rfl rfl rfl (by decide) rfl (by rfl) (by rfl) rfl

/-- The split policy on a topic-count mismatch outside the zero-topics
exception: an `EventError` whose message is the "not marked as indexed"
one when the supplied topics outnumber the declared indexed inputs, and
the "incorrectly marked as indexed" one when they fall short. -/
theorem splitPolicy_mismatch (inputs : List Param) (flags : List Bool)
    (topics : List (List Nat))
    (hexc : topics ≠ [] ∨ (flags.filter id).length = 0)
    (hne : (flags.filter id).length ≠ topics.length) :
    splitPolicy inputs flags topics =
      .error (.eventError (if (flags.filter id).length < topics.length
        then msgNotMarkedAsIndexed else msgIncorrectlyMarkedAsIndexed)) := by
  unfold splitPolicy
  have hnotspecial : ¬((flags.filter id).length ≠ 0 ∧ topics = []) := by
    rcases hexc with h | h
    · intro hc; exact h hc.2
    · intro hc; exact hc.1 h
  rw [if_neg hnotspecial]
  by_cases hlt : (flags.filter id).length < topics.length
  · rw [if_pos hlt, if_pos hlt]
  · rw [if_neg hlt, if_neg hlt, if_pos (by omega)]

set_option maxRecDepth 8000 in
/-- C3 counterexample: a log supplying one topic beyond `topics[0]`
against a schema with two indexed inputs — *too few* topics — fails with
the "incorrectly marked as indexed" message, not the
"not marked as indexed" message the claim assigns to this case (the code
pairs the two messages the other way round); the final conjunct checks
that the claimed phrase does not even occur in the raised message. -/
theorem claim_C3_counterexample :
    decode_log modelDecode (fun s => s) ⟨"0xaa", [w1, w2], "0x", none, none, none⟩
        [(hex0x w1, ⟨"E", [pIndexed, pIndexed]⟩)] =
      .error (.eventError msgIncorrectlyMarkedAsIndexed) ∧
    msgIncorrectlyMarkedAsIndexed ≠ msgNotMarkedAsIndexed ∧
    ¬ List.IsInfix "not marked as indexed".toList
        msgIncorrectlyMarkedAsIndexed.toList :=
  ⟨rfl, by decide, by decide⟩

/-- C3 amended: whenever the supplied topics beyond `topics[0]` differ in
number from the declared indexed inputs and the zero-topics exception does
not apply, `decode_log` fails with `EventError`; the message is the
"not marked as indexed" one when there are too *many* topics
(`indexed_count < len(topics)`) and the "incorrectly marked as indexed"
one when there are too *few* — the opposite pairing to the claim's. -/
theorem claim_C3_amended (dec : Dec) (checksum : String → String) (log : Log)
    (tm : TopicMap) (abi : EventAbi) (t0 : List Nat) (restT : List (List Nat))
    (flags : List Bool)
    (htop : log.topics = t0 :: restT)
    (hlook : List.lookup (hex0x t0) tm = some abi)
    (hflags : abi.inputs.mapM getIndexed = .ok flags)
    (hexc : restT ≠ [] ∨ (flags.filter id).length = 0)
    (hne : (flags.filter id).length ≠ restT.length) :
    decode_log dec checksum log tm =
      .error (.eventError (if (flags.filter id).length < restT.length
        then msgNotMarkedAsIndexed else msgIncorrectlyMarkedAsIndexed)) := by
  obtain ⟨laddr, ltop, ldata, lli, lbn, lti⟩ := log
  simp only at htop
  subst htop
  have hpd : pyDecode dec abi.inputs restT ldata =
      .error (.eventError (if (flags.filter id).length < restT.length
        then msgNotMarkedAsIndexed else msgIncorrectlyMarkedAsIndexed)) := by
    simp only [pyDecode, hflags, splitPolicy_mismatch abi.inputs flags restT hexc hne]
  simp only [decode_log, hlook, hpd]

set_option maxRecDepth 8000 in
/-- C3 amended witness: two supplied topics against one declared indexed
input — too many topics — raises the "not marked as indexed" message. -/
theorem claim_C3_amended_witness :
    decode_log modelDecode (fun s => s) ⟨"0xaa", [w1, w1, w2], "0x", none, none, none⟩
        [(hex0x w1, ⟨"E", [pIndexed, pUnindexed]⟩)] =
      .error (.eventError msgNotMarkedAsIndexed) := by
  have h := claim_C3_amended modelDecode (fun s => s)
    ⟨"0xaa", [w1, w1, w2], "0x", none, none, none⟩
    [(hex0x w1, ⟨"E", [pIndexed, pUnindexed]⟩)] ⟨"E", [pIndexed, pUnindexed]⟩
    w1 [w1, w2] [true, false] rfl rfl rfl (Or.inl (by decide)) (by decide)
  simpa using h

/-- C10: the walk starts at index 1 with `steps[0]` used only as the
initial `last_step`, so a single-step trace always produces the empty
event list — even when that step is a LOG opcode with a known topic (the
step is arbitrary here, so this instance is included). -/
theorem claim_C10 (dec : Dec) (checksum : String → String) (s : Step) (tm : TopicMap)
    (allow : Bool) (ia : Option String) :
    decode_traceTransaction dec checksum [s] tm allow ia = .ok [] := by
  cases ia <;> rfl

/-- C8: first, `get_log_topic` on non-anonymous events is a pure function
of the event name and the canonical type list of its inputs — parameter
names, indexed flags and any other fields do not influence the topic;
second, a tuple parameter (bare `tuple`, or `tuple[N]`/`tuple[]` with a
digit-run size) is canonicalized to the parenthesized comma-join of the
recursive canonicalization of its components followed by the array suffix,
at any nesting depth (the components' canonicalization enters as a
hypothesis, so the equation applies recursively). -/
theorem claim_C8 :
    (∀ (kc : String → List Nat) (e1 e2 : EventAbiDict) (n : String)
       (i1 i2 : List Param) (ts : List String),
       e1.anonymous = false → e2.anonymous = false →
       e1.name = some n → e2.name = some n →
       e1.inputs = some i1 → e2.inputs = some i2 →
       params' i1 = .ok ts → params' i2 = .ok ts →
       get_log_topic kc e1 = get_log_topic kc e2) ∧
    (∀ (nm : Option String) (ix : Option Bool) (comps rest : ParamList)
       (inner restTs : List String),
       paramsPL comps = .ok inner → paramsPL rest = .ok restTs →
       paramsPL (.cons (.mk nm (some "tuple") ix (some comps)) rest) =
         .ok (("(" ++ String.intercalate "," inner ++ ")") :: restTs)) ∧
    (∀ (nm : Option String) (ix : Option Bool) (ds : List Char)
       (comps rest : ParamList) (inner restTs : List String),
       ds.all Char.isDigit = true →
       paramsPL comps = .ok inner → paramsPL rest = .ok restTs →
       paramsPL (.cons
           (.mk nm (some (String.mk ('t' :: 'u' :: 'p' :: 'l' :: 'e' :: '[' :: (ds ++ [']']))))
             ix (some comps)) rest) =
         .ok ((("(" ++ String.intercalate "," inner ++ ")") ++
               ("[" ++ String.mk ds ++ "]")) :: restTs)) := by
  refine ⟨?_, ?_, ?_⟩
  · intro kc e1 e2 n i1 i2 ts ha1 ha2 hn1 hn2 hi1 hi2 hp1 hp2
    obtain ⟨t1, n1, a1, in1⟩ := e1
    obtain ⟨t2, n2, a2, in2⟩ := e2
    dsimp only at ha1 ha2 hn1 hn2 hi1 hi2
    subst ha1; subst ha2; subst hn1; subst hn2; subst hi1; subst hi2
    simp only [get_log_topic, hp1, hp2]
  · intro nm ix comps rest inner restTs hcomps hrest
    have htm0 : tupleMatch "tuple" = some none := rfl
    unfold paramsPL
    dsimp only
    rw [htm0]
    dsimp only
    rw [hcomps]
    dsimp only
    rw [hrest]
    dsimp only [tupleTail]
    simp
  · intro nm ix ds comps rest inner restTs hds hcomps hrest
    have htm : tupleMatch (String.mk ('t' :: 'u' :: 'p' :: 'l' :: 'e' :: '[' :: (ds ++ [']']))) =
        some (some (String.mk ds)) := by
      show tupleMatchL ('t' :: 'u' :: 'p' :: 'l' :: 'e' :: '[' :: (ds ++ [']'])) = _
      simp only [tupleMatchL, spanDigits_digits_bracket ds [] hds]
    unfold paramsPL
    dsimp only
    rw [htm]
    dsimp only
    rw [hcomps]
    dsimp only
    rw [hrest]
    dsimp only [tupleTail]

/-- C8 witness: two descriptions of a three-`uint256` event differing in
parameter names, indexed flags and components produce the same topic, and
a `tuple[2]` of one `uint256` component canonicalizes to
`"(uint256)[2]"`. -/
theorem claim_C8_witness :
    get_log_topic kc0 ⟨some "event", some "Transfer", false,
        some [pIndexed, pIndexed, pUnindexed]⟩ =
      get_log_topic kc0 ⟨some "event", some "Transfer", false,
        some [.mk (some "x") (some "uint256") (some false) none,
              .mk (some "y") (some "uint256") (some false) none,
              .mk (some "z") (some "uint256") (some true) none]⟩ ∧
    paramsPL (.cons (.mk (some "s") (some "tuple[2]") (some false)
        (some (.cons pUnindexed .nil))) .nil) =
      .ok ["(uint256)[2]"] := by
  constructor
  · exact claim_C8.1 kc0 _ _ "Transfer" _ _ ["uint256", "uint256", "uint256"]
      rfl rfl rfl rfl rfl rfl rfl rfl
  · have h := claim_C8.2.2 (some "s") (some false) ['2']
      (.cons pUnindexed .nil) .nil ["uint256"] [] (by decide) rfl rfl
    exact h.trans (by rfl)

end EthEvent
